import Mathlib

/-!
# The Zabbix JSON-RPC client (zabbix.go)

A shallow embedding of the client: the session (`API`), the request choke-point
`ZabbixRequest`, the session calls `Login`, `Logout`, `Version` and the resource accessors
`User`, `Host`, `Graph`, `History`.

What the Go code obtains from outside the repository is modelled as follows.

* `encoding/json`: a document is a `JValue` tree (the output of the syntax scanner, with
  string escapes resolved); `unmarshalResponse`, `unmarshalHosts`, `unmarshalHistory` follow the
  rules of the decoder for structs, maps, slices and `interface{}`.
* `net/http`: a `World` keeps the documents the client posts and says how each exchange ends.
* Go `int` is the 64-bit integer, wrapping around on overflow (`wrapInt`).
* a Go panic is the `Outcome.panicked` result.
-/

namespace Zabbix

/-! ## JSON -/

/-- A JSON number literal, represented by what the decoder asks of it: the result of
`strconv.ParseInt(lit, 10, 64)` (`none` when that fails) and whether the literal is in the
range of a float64. Of the float64 that the decoder stores for the literal only this is
represented: it is finite when `float64` is true and an infinity otherwise. -/
structure JNumber where
  int64 : Option Int
  float64 : Bool
deriving DecidableEq, Repr

/-- A JSON value. It is used both for a parsed document (object members in document order,
repeats allowed) and for what `encoding/json` stores in an `interface{}`: `null` is the nil
interface, `num` a float64, `arr` a `[]interface{}` and `obj` a `map[string]interface{}`. A Go
map has no order of its own; it is kept here with each key once and the keys ascending. -/
inductive JValue where
  | null
  | bool (b : Bool)
  | num (n : JNumber)
  | str (s : String)
  | arr (xs : List JValue)
  | obj (kvs : List (String × JValue))
deriving Repr

/-- Lexicographic order on lists of code points. -/
def codesLess : List Nat → List Nat → Bool
  | _, [] => false
  | [], _ :: _ => true
  | a :: as, b :: bs => decide (a < b) || (decide (a = b) && codesLess as bs)

/-- The order `json.Marshal` sorts map keys by: Go compares the UTF-8 bytes of the strings,
which orders them as their code point sequences. -/
def keyLess (a b : String) : Bool :=
  codesLess (a.data.map Char.toNat) (b.data.map Char.toNat)

/-- The Go map assignment `m[k] = v` on a map kept in ascending key order. -/
def mapSet (m : List (String × JValue)) (k : String) (v : JValue) : List (String × JValue) :=
  match m with
  | [] => [(k, v)]
  | (k1, v1) :: rest =>
    if keyLess k k1 then (k, v) :: (k1, v1) :: rest
    else if keyLess k1 k then (k1, v1) :: mapSet rest k v
    else (k, v) :: rest

mutual
/-- Decoding a document into an `interface{}`: a number becomes a float64, which is an
infinity when the literal is out of range (`n.float64 = false`; the decoder then also records
an error, see `valueRangeError`); an array becomes a slice; an object becomes a map, a repeated
key keeping its last value. -/
def valueInterface : JValue → JValue
  | .null => .null
  | .bool b => .bool b
  | .num n => .num n
  | .str s => .str s
  | .arr xs => .arr (arrayInterface xs)
  | .obj kvs => .obj (objectInterface kvs [])
/-- The elements of an array, decoded in order. -/
def arrayInterface : List JValue → List JValue
  | [] => []
  | x :: xs => valueInterface x :: arrayInterface xs
/-- The members of an object, assigned to the map `m` in document order. -/
def objectInterface : List (String × JValue) → List (String × JValue) → List (String × JValue)
  | [], m => m
  | (k, v) :: rest, m => objectInterface rest (mapSet m k (valueInterface v))
end

mutual
/-- Whether some number in the value is out of the range of a float64. For a document this
says that decoding it into an `interface{}` records an error; for a decoded value it says that
the value holds an infinity. -/
def valueRangeError : JValue → Bool
  | .null => false
  | .bool _ => false
  | .num n => !n.float64
  | .str _ => false
  | .arr xs => arrayRangeError xs
  | .obj kvs => objectRangeError kvs
/-- Range error in some element of an array. -/
def arrayRangeError : List JValue → Bool
  | [] => false
  | x :: xs => valueRangeError x || arrayRangeError xs
/-- Range error in some member of an object. -/
def objectRangeError : List (String × JValue) → Bool
  | [] => false
  | (_, v) :: rest => valueRangeError v || objectRangeError rest
end

/-- Insertion of a member into members that are in ascending key order. -/
def insertField (e : String × JValue) : List (String × JValue) → List (String × JValue)
  | [] => [e]
  | e1 :: rest => if keyLess e1.1 e.1 then e1 :: insertField e rest else e :: e1 :: rest

/-- The members in ascending key order, as `json.Marshal` prints the entries of a map. -/
def sortFields : List (String × JValue) → List (String × JValue)
  | [] => []
  | e :: rest => insertField e (sortFields rest)

mutual
/-- The document `json.Marshal` prints for a value held in an `interface{}` that holds no
infinity: a slice is printed element by element, a map entry by entry with the keys sorted. A
string, which came out of the decoder, is valid text and is printed as a literal that reads
back as the same string; a finite float64 is printed as a literal that reads back as the same
float64 (what ParseInt makes of that literal is not represented: nothing decoded from this
output asks for it). -/
def printInterface : JValue → JValue
  | .null => .null
  | .bool b => .bool b
  | .num n => .num n
  | .str s => .str s
  | .arr xs => .arr (printArray xs)
  | .obj kvs => .obj (sortFields (printFields kvs))
/-- The elements of a slice, printed in order. -/
def printArray : List JValue → List JValue
  | [] => []
  | x :: xs => printInterface x :: printArray xs
/-- The entries of a map, each value printed. -/
def printFields : List (String × JValue) → List (String × JValue)
  | [] => []
  | (k, v) :: rest => (k, printInterface v) :: printFields rest
end

/-- The function `json.Marshal` on a value held in an `interface{}`: it fails (`none`, the
returned bytes are then empty) when the value holds an infinity anywhere, and prints the value
otherwise. -/
def marshalInterface (v : JValue) : Option JValue :=
  if valueRangeError v then none else some (printInterface v)

/-! ## Matching object keys to struct fields -/

/-- Case folding of one code point as far as it can reach an ASCII letter: a lower-case ASCII
letter goes to its upper-case letter, the Kelvin sign U+212A to K and the long s U+017F to S
(the two non-ASCII code points whose simple case folding orbit meets ASCII). -/
def foldCode (n : Nat) : Nat :=
  if 97 ≤ n ∧ n ≤ 122 then n - 32
  else if n = 0x212A then 75
  else if n = 0x17F then 83
  else n

/-- The folded form of a key. For the ASCII field names below, two names have the same folded
form exactly when the case-insensitive comparison of the decoder accepts them. -/
def foldName (s : String) : List Nat :=
  s.data.map (fun c => foldCode c.toNat)

/-- The struct field an object key is decoded into: the field with exactly that JSON name,
otherwise the first field whose name matches case-insensitively, otherwise none (the member is
skipped). -/
def findField (fields : List String) (key : String) : Option String :=
  if key ∈ fields then some key
  else fields.find? (fun f => foldName f == foldName key)

/-- Decoding the members of an object into a struct, in document order. `set` stores one
member and says whether that recorded a type error; decoding goes on after an error. -/
def decodeFields {σ : Type} (set : σ → String → JValue → σ × Bool) :
    List (String × JValue) → σ → σ × Bool
  | [], s => (s, false)
  | (k, v) :: rest, s =>
    let r1 := set s k v
    let r2 := decodeFields set rest r1.1
    (r2.1, r1.2 || r2.2)

/-- Decoding a value into a Go `string`: a string is stored, null leaves the field as it is,
anything else is a type error and leaves the field as it is. -/
def storeString (old : String) : JValue → String × Bool
  | .str s => (s, false)
  | .null => (old, false)
  | _ => (old, true)

/-- Decoding a value into a Go `int`: an integer literal in range is stored, null leaves the
field as it is, anything else is a type error and leaves the field as it is. -/
def storeInt (old : Int) : JValue → Int × Bool
  | .num n =>
    match n.int64 with
    | some i => if -2 ^ 63 ≤ i ∧ i < 2 ^ 63 then (i, false) else (old, true)
    | none => (old, true)
  | .null => (old, false)
  | _ => (old, true)

/-! ## The data types of zabbix.go -/

/-- The Go type `ZabbixError`. -/
structure ZabbixError where
  Code : Int
  Message : String
  Data : String
deriving DecidableEq, Repr

/-- The Go method `(*ZabbixError).Error`. -/
def ZabbixError.Error (z : ZabbixError) : String := z.Data

/-- The Go type `JsonRPCResponse`; `Result` is the `interface{}` field. -/
structure JsonRPCResponse where
  Jsonrpc : String
  Error : ZabbixError
  Result : JValue
  Id : Int

/-- The zero value `JsonRPCResponse{}`. -/
def JsonRPCResponse.zero : JsonRPCResponse := ⟨"", ⟨0, "", ""⟩, .null, 0⟩

/-- A caller-supplied `data interface{}`, represented by what `json.Marshal` makes of it: a
document, or an error for a value Marshal does not support. -/
inductive Params where
  | value (doc : JValue)
  | unsupported (reason : String)

/-- The Go type `JsonRPCRequest`. -/
structure JsonRPCRequest where
  Jsonrpc : String
  Method : String
  Params : Params
  Auth : String
  Id : Int

/-- The Go type `ZabbixHistoryItem`. -/
structure ZabbixHistoryItem where
  Clock : String
  Value : String
  Itemid : String
deriving DecidableEq, Repr

/-- The Go type `ZabbixHost`, a `map[string]interface{}`; `none` is the nil map. -/
abbrev ZabbixHost := Option (List (String × JValue))

/-- The Go type `ZabbixGraph`, a `map[string]interface{}`; `none` is the nil map. -/
abbrev ZabbixGraph := Option (List (String × JValue))

/-- The Go type `API`, without the `Client` pointer, which no function changes; the behaviour
of the client is the `World` given to each call. -/
structure API where
  url : String
  user : String
  passwd : String
  id : Int
  auth : String
deriving DecidableEq, Repr

/-- A Go `error` value returned by the client. -/
inductive GoError where
  | marshal (reason : String)
  | newRequest (reason : String)
  | transport (reason : String)
  | read (reason : String)
  | zabbix (e : ZabbixError)
deriving DecidableEq, Repr

/-- The `Error()` text of an error value. -/
def GoError.Error : GoError → String
  | .marshal s => s
  | .newRequest s => s
  | .transport s => s
  | .read s => s
  | .zabbix e => e.Error

/-- How one HTTP exchange ends. -/
inductive Exchange where
  | newRequestFailed (reason : String)
  | doFailed (reason : String)
  | copyFailed (reason : String)
  | body (doc : Option JValue)

/-- The world outside the client: the documents handed so far to `http.NewRequest` as the
body of a POST, each with its url, oldest first, and how an exchange ends given all of them,
the one just handed over included: `http.NewRequest` fails, or `Client.Do` fails, or reading
the body fails, or the body is read in full. A body is given by the outcome of the JSON syntax
check: `none` when it is not valid JSON, the document otherwise. -/
structure World where
  posted : List (String × JValue)
  server : List (String × JValue) → Exchange

/-- One exchange: the document is handed over, and the world says how the exchange ends. -/
def World.post (w : World) (url : String) (body : JValue) : Exchange × World :=
  (w.server (w.posted ++ [(url, body)]), { w with posted := w.posted ++ [(url, body)] })

/-- Result of a Go call that may panic. -/
inductive Outcome (α : Type) where
  | returned (a : α)
  | panicked (reason : String)

/-! ## Encoding and decoding the envelopes -/

/-- The number literal Marshal prints for a Go `int`. -/
def JNumber.ofInt (i : Int) : JNumber := ⟨some i, true⟩

/-- The function `json.Marshal` on a `JsonRPCRequest`: fields in declaration order, `auth`
left out when empty (`omitempty`); it fails when the params cannot be marshalled. -/
def marshalRequest (q : JsonRPCRequest) : Except String JValue :=
  match q.Params with
  | .unsupported reason => .error reason
  | .value doc =>
    .ok (.obj ([("jsonrpc", .str q.Jsonrpc), ("method", .str q.Method), ("params", doc)]
      ++ (if q.Auth = "" then [] else [("auth", .str q.Auth)])
      ++ [("id", .num (JNumber.ofInt q.Id))]))

/-- JSON names of the fields of `ZabbixError`. -/
def errorFields : List String := ["code", "message", "data"]

/-- JSON names of the fields of `JsonRPCResponse`. -/
def responseFields : List String := ["jsonrpc", "error", "result", "id"]

/-- JSON names of the fields of `ZabbixHistoryItem`. -/
def historyFields : List String := ["clock", "value", "itemid"]

/-- Storing one object member into a `ZabbixError`. -/
def ZabbixError.setField (e : ZabbixError) (key : String) (v : JValue) : ZabbixError × Bool :=
  match findField errorFields key with
  | none => (e, false)
  | some f =>
    if f = "code" then ({ e with Code := (storeInt e.Code v).1 }, (storeInt e.Code v).2)
    else if f = "message" then
      ({ e with Message := (storeString e.Message v).1 }, (storeString e.Message v).2)
    else ({ e with Data := (storeString e.Data v).1 }, (storeString e.Data v).2)

/-- Decoding a value into a `ZabbixError` struct: an object is decoded member by member, null
leaves the struct as it is, anything else is a type error. -/
def unmarshalError (e : ZabbixError) : JValue → ZabbixError × Bool
  | .obj kvs => decodeFields ZabbixError.setField kvs e
  | .null => (e, false)
  | _ => (e, true)

/-- Storing one object member into a `JsonRPCResponse`. -/
def JsonRPCResponse.setField (r : JsonRPCResponse) (key : String) (v : JValue) :
    JsonRPCResponse × Bool :=
  match findField responseFields key with
  | none => (r, false)
  | some f =>
    if f = "jsonrpc" then
      ({ r with Jsonrpc := (storeString r.Jsonrpc v).1 }, (storeString r.Jsonrpc v).2)
    else if f = "error" then
      ({ r with Error := (unmarshalError r.Error v).1 }, (unmarshalError r.Error v).2)
    else if f = "result" then ({ r with Result := valueInterface v }, valueRangeError v)
    else ({ r with Id := (storeInt r.Id v).1 }, (storeInt r.Id v).2)

/-- The function `json.Unmarshal(body, &result)` for a `JsonRPCResponse`: the struct after
the call and whether Unmarshal returns an error. A body that is not valid JSON is rejected
before anything is stored. -/
def unmarshalResponse (r : JsonRPCResponse) : Option JValue → JsonRPCResponse × Bool
  | none => (r, true)
  | some (.obj kvs) => decodeFields JsonRPCResponse.setField kvs r
  | some .null => (r, false)
  | some _ => (r, true)

/-- Decoding a document into a `map[string]interface{}` that is nil. -/
def unmarshalMap : JValue → Option (List (String × JValue)) × Bool
  | .obj kvs => (some (objectInterface kvs []), objectRangeError kvs)
  | .null => (none, false)
  | _ => (none, true)

/-- Decoding into a nil slice the bytes Marshal returned (`none`: not valid JSON, as the empty
bytes of a failed Marshal are): an array gives one element per item, each decoded into a zero
element by `elem`; null leaves the slice nil; anything else is an error and leaves the slice
nil. -/
def unmarshalSlice {α : Type} (elem : JValue → α × Bool) :
    Option JValue → Option (List α) × Bool
  | some (.arr xs) => (some (xs.map (fun x => (elem x).1)), xs.any (fun x => (elem x).2))
  | some .null => (none, false)
  | _ => (none, true)

/-- The function `json.Unmarshal(res, &ret)` for `ret []ZabbixHost`. -/
def unmarshalHosts (res : Option JValue) : Option (List ZabbixHost) × Bool :=
  unmarshalSlice unmarshalMap res

/-- The function `json.Unmarshal(res, &ret)` for `ret []ZabbixGraph`. -/
def unmarshalGraphs (res : Option JValue) : Option (List ZabbixGraph) × Bool :=
  unmarshalSlice unmarshalMap res

/-- Storing one object member into a `ZabbixHistoryItem`. -/
def ZabbixHistoryItem.setField (h : ZabbixHistoryItem) (key : String) (v : JValue) :
    ZabbixHistoryItem × Bool :=
  match findField historyFields key with
  | none => (h, false)
  | some f =>
    if f = "clock" then ({ h with Clock := (storeString h.Clock v).1 }, (storeString h.Clock v).2)
    else if f = "value" then
      ({ h with Value := (storeString h.Value v).1 }, (storeString h.Value v).2)
    else ({ h with Itemid := (storeString h.Itemid v).1 }, (storeString h.Itemid v).2)

/-- Decoding a document into a zero `ZabbixHistoryItem`. -/
def unmarshalHistoryItem : JValue → ZabbixHistoryItem × Bool
  | .obj kvs => decodeFields ZabbixHistoryItem.setField kvs ⟨"", "", ""⟩
  | .null => (⟨"", "", ""⟩, false)
  | _ => (⟨"", "", ""⟩, true)

/-- The function `json.Unmarshal(res, &ret)` for `ret []ZabbixHistoryItem`. -/
def unmarshalHistory (res : Option JValue) : Option (List ZabbixHistoryItem) × Bool :=
  unmarshalSlice unmarshalHistoryItem res

/-- The name the Go runtime prints for the dynamic type of a decoded value. -/
def dynamicType : JValue → String
  | .null => "nil"
  | .bool _ => "bool"
  | .num _ => "float64"
  | .str _ => "string"
  | .arr _ => "[]interface \x7b\x7d"
  | .obj _ => "map[string]interface \x7b\x7d"

/-- The text of the panic of a failed one-value type assertion `v.(T)` on an `interface{}`. -/
def assertionPanic (v : JValue) (target : String) : String :=
  "interface conversion: interface \x7b\x7d is " ++ dynamicType v ++ ", not " ++ target

/-! ## The session -/

/-- Go `int` arithmetic on a 64-bit target: the result wraps around into the range from -2^63
to 2^63 - 1. -/
def wrapInt (i : Int) : Int := (i + 2 ^ 63) % 2 ^ 64 - 2 ^ 63

/-- The function `NewAPI`: the session and the (nil) error. -/
def NewAPI (server user passwd : String) : API × Option GoError :=
  (⟨server, user, passwd, 0, ""⟩, none)

/-- The method `GetAuth`. -/
def GetAuth (api : API) : String := api.auth

/-- What `ZabbixRequest` leaves behind: the session and the world after the call, and the two
return values. -/
structure RequestResult where
  api : API
  world : World
  response : JsonRPCResponse
  err : Option GoError

/-- The method `ZabbixRequest`. -/
def ZabbixRequest (api : API) (method : String) (data : Params) (w : World) : RequestResult :=
  let id := api.id
  let api := { api with id := wrapInt (api.id + 1) }
  let jsonobj : JsonRPCRequest := ⟨"2.0", method, data, api.auth, id⟩
  match marshalRequest jsonobj with
  | .error e => ⟨api, w, JsonRPCResponse.zero, some (.marshal e)⟩
  | .ok encoded =>
    match (w.post api.url encoded).1 with
    | .newRequestFailed e =>
      ⟨api, (w.post api.url encoded).2, JsonRPCResponse.zero, some (.newRequest e)⟩
    | .doFailed e => ⟨api, (w.post api.url encoded).2, JsonRPCResponse.zero, some (.transport e)⟩
    | .copyFailed e => ⟨api, (w.post api.url encoded).2, JsonRPCResponse.zero, some (.read e)⟩
    | .body doc =>
      -- the error Unmarshal returns is not looked at
      let result := (unmarshalResponse JsonRPCResponse.zero doc).1
      ⟨api, (w.post api.url encoded).2, result, none⟩

/-- What a session call leaves behind: the session and the world after the call, and the
return values or the panic. -/
structure CallResult (α : Type) where
  api : API
  world : World
  out : Outcome α

/-- The params of `user.login`, a `map[string]string` with the keys user and password. -/
def loginParams (api : API) : Params :=
  .value (.obj (mapSet (mapSet [] "user" (.str api.user)) "password" (.str api.passwd)))

/-- The empty `map[string]string` passed by `Logout` and `Version`. -/
def emptyParams : Params := .value (.obj [])

/-- The method `Login`. The line it prints on a request error is not modelled. -/
def Login (api : API) (w : World) : CallResult (Bool × Option GoError) :=
  let r := ZabbixRequest api "user.login" (loginParams api) w
  match r.err with
  | some err => ⟨r.api, r.world, .returned (false, some err)⟩
  | none =>
    if r.response.Error.Code ≠ 0 then
      ⟨r.api, r.world, .returned (false, some (.zabbix r.response.Error))⟩
    else
      match r.response.Result with
      | .str s => ⟨{ r.api with auth := s }, r.world, .returned (true, none)⟩
      | v => ⟨r.api, r.world, .panicked (assertionPanic v "string")⟩

/-- The method `Logout`. -/
def Logout (api : API) (w : World) : CallResult (Bool × Option GoError) :=
  let r := ZabbixRequest api "user.logout" emptyParams w
  match r.err with
  | some err => ⟨r.api, r.world, .returned (false, some err)⟩
  | none =>
    if r.response.Error.Code ≠ 0 then
      ⟨r.api, r.world, .returned (false, some (.zabbix r.response.Error))⟩
    else ⟨r.api, r.world, .returned (true, none)⟩

/-- The method `Version`. -/
def Version (api : API) (w : World) : CallResult (String × Option GoError) :=
  let r := ZabbixRequest api "APIInfo.version" emptyParams w
  match r.err with
  | some err => ⟨r.api, r.world, .returned ("", some err)⟩
  | none =>
    if r.response.Error.Code ≠ 0 then
      ⟨r.api, r.world, .returned ("", some (.zabbix r.response.Error))⟩
    else
      match r.response.Result with
      | .str s => ⟨r.api, r.world, .returned (s, none)⟩
      | v => ⟨r.api, r.world, .panicked (assertionPanic v "string")⟩

/-- The method `User`; a `none` result is the nil slice. -/
def User (api : API) (method : String) (data : Params) (w : World) :
    CallResult (Option (List JValue) × Option GoError) :=
  let r := ZabbixRequest api ("user." ++ method) data w
  match r.err with
  | some err => ⟨r.api, r.world, .returned (none, some err)⟩
  | none =>
    if r.response.Error.Code ≠ 0 then
      ⟨r.api, r.world, .returned (none, some (.zabbix r.response.Error))⟩
    else
      match r.response.Result with
      | .arr xs => ⟨r.api, r.world, .returned (some xs, none)⟩
      | v => ⟨r.api, r.world, .panicked (assertionPanic v "[]interface \x7b\x7d")⟩

/-- The method `Host`; a `none` result is the nil slice. -/
def Host (api : API) (method : String) (data : Params) (w : World) :
    CallResult (Option (List ZabbixHost) × Option GoError) :=
  let r := ZabbixRequest api ("host." ++ method) data w
  match r.err with
  | some err => ⟨r.api, r.world, .returned (none, some err)⟩
  | none =>
    if r.response.Error.Code ≠ 0 then
      ⟨r.api, r.world, .returned (none, some (.zabbix r.response.Error))⟩
    else
      -- res, err := json.Marshal(response.Result): err is overwritten by the next line
      let res := marshalInterface r.response.Result
      -- err = json.Unmarshal(res, &ret) is assigned and not returned
      let ret := (unmarshalHosts res).1
      ⟨r.api, r.world, .returned (ret, none)⟩

/-- The method `Graph`; a `none` result is the nil slice. -/
def Graph (api : API) (method : String) (data : Params) (w : World) :
    CallResult (Option (List ZabbixGraph) × Option GoError) :=
  let r := ZabbixRequest api ("graph." ++ method) data w
  match r.err with
  | some err => ⟨r.api, r.world, .returned (none, some err)⟩
  | none =>
    if r.response.Error.Code ≠ 0 then
      ⟨r.api, r.world, .returned (none, some (.zabbix r.response.Error))⟩
    else
      -- res, err := json.Marshal(response.Result): err is overwritten by the next line
      let res := marshalInterface r.response.Result
      -- err = json.Unmarshal(res, &ret) is assigned and not returned
      let ret := (unmarshalGraphs res).1
      ⟨r.api, r.world, .returned (ret, none)⟩

/-- The method `History`; a `none` result is the nil slice. -/
def History (api : API) (method : String) (data : Params) (w : World) :
    CallResult (Option (List ZabbixHistoryItem) × Option GoError) :=
  let r := ZabbixRequest api ("history." ++ method) data w
  match r.err with
  | some err => ⟨r.api, r.world, .returned (none, some err)⟩
  | none =>
    if r.response.Error.Code ≠ 0 then
      ⟨r.api, r.world, .returned (none, some (.zabbix r.response.Error))⟩
    else
      -- res, err := json.Marshal(response.Result): err is overwritten by the next line
      let res := marshalInterface r.response.Result
      -- err = json.Unmarshal(res, &ret) is assigned and not returned
      let ret := (unmarshalHistory res).1
      ⟨r.api, r.world, .returned (ret, none)⟩

/-! ## Runs of calls on one session -/

/-- One call on a session. -/
inductive Call where
  | request (method : String) (data : Params)
  | login
  | logout
  | version
  | user (method : String) (data : Params)
  | host (method : String) (data : Params)
  | graph (method : String) (data : Params)
  | history (method : String) (data : Params)

/-- The session and the world between two calls. -/
structure Session where
  api : API
  world : World

/-- Making one call. A call that panics leaves the session and the world as its
`ZabbixRequest` left them. -/
def Call.exec (c : Call) (api : API) (w : World) : Session :=
  match c with
  | .request m d => ⟨(ZabbixRequest api m d w).api, (ZabbixRequest api m d w).world⟩
  | .login => ⟨(Login api w).api, (Login api w).world⟩
  | .logout => ⟨(Logout api w).api, (Logout api w).world⟩
  | .version => ⟨(Version api w).api, (Version api w).world⟩
  | .user m d => ⟨(User api m d w).api, (User api m d w).world⟩
  | .host m d => ⟨(Host api m d w).api, (Host api m d w).world⟩
  | .graph m d => ⟨(Graph api m d w).api, (Graph api m d w).world⟩
  | .history m d => ⟨(History api m d w).api, (History api m d w).world⟩

/-- A run of calls on one session; a panicking call is taken as recovered by the caller, so
the run goes on. The result is the session and the world after the last call. -/
def runCalls : API → World → List Call → Session
  | api, w, [] => ⟨api, w⟩
  | api, w, c :: rest => runCalls (c.exec api w).api (c.exec api w).world rest

/-- The record of a run: for each call, the documents it handed over for posting and the
session after it. -/
def runTrace : API → World → List Call → List (List (String × JValue) × API)
  | _, _, [] => []
  | api, w, c :: rest =>
    ((c.exec api w).world.posted.drop w.posted.length, (c.exec api w).api) ::
      runTrace (c.exec api w).api (c.exec api w).world rest

/-! ## Vocabulary of the statements -/

/-- The member of an object document with the given key, if any. -/
def JValue.member (key : String) : JValue → Option JValue
  | .obj kvs => (kvs.find? (fun kv => kv.1 == key)).map (fun kv => kv.2)
  | _ => none

/-- The auth member of a posted envelope that carries the token `t`: the string `t`, and no
member at all for the empty token (`omitempty`). -/
def authMember (t : String) : Option JValue :=
  if t = "" then none else some (.str t)

/-- The method name the call passes to `ZabbixRequest`. -/
def Call.method : Call → String
  | .request m _ => m
  | .login => "user.login"
  | .logout => "user.logout"
  | .version => "APIInfo.version"
  | .user m _ => "user." ++ m
  | .host m _ => "host." ++ m
  | .graph m _ => "graph." ++ m
  | .history m _ => "history." ++ m

/-- The params the call passes to `ZabbixRequest`. -/
def Call.params : Call → API → Params
  | .request _ d, _ => d
  | .login, api => loginParams api
  | .logout, _ => emptyParams
  | .version, _ => emptyParams
  | .user _ d, _ => d
  | .host _ d, _ => d
  | .graph _ d, _ => d
  | .history _ d, _ => d

/-- Whether the params of the call can be marshalled. -/
def Call.encodes : Call → Bool
  | .request _ (.unsupported _) => false
  | .user _ (.unsupported _) => false
  | .host _ (.unsupported _) => false
  | .graph _ (.unsupported _) => false
  | .history _ (.unsupported _) => false
  | _ => true

/-- What a run started with the counter at `k` is to post and to count: each call whose params
can be marshalled posts one envelope, with the id member `k`, a call whose params cannot be
marshalled posts nothing, and either way the counter is `k + 1` after the call. -/
def expectedIds : Int → List Call → List (List (Option JValue) × Int)
  | _, [] => []
  | k, c :: rest =>
    ((if c.encodes then [some (.num (JNumber.ofInt k))] else []), k + 1) ::
      expectedIds (k + 1) rest

/-- Keys ascending along the list. -/
def SortedKeys (m : List (String × JValue)) : Prop :=
  m.Pairwise (fun a b => keyLess a.1 b.1 = true)

/-- An element of the result with string-valued clock, value and itemid members, and the
record that holds those three strings. -/
def HistoryRecord (o : JValue) (it : ZabbixHistoryItem) : Prop :=
  ∃ m, o = .obj m ∧ ("clock", JValue.str it.Clock) ∈ m ∧ ("value", JValue.str it.Value) ∈ m ∧
    ("itemid", JValue.str it.Itemid) ∈ m

/-- The element holds no string under the key spelt c, l, o, c, Kelvin sign (U+212A). -/
def NoKelvinClock (o : JValue) : Prop :=
  ∀ m s, o = .obj m → ("cloc\u212A", JValue.str s) ∉ m

/-! ## Example sessions, worlds and answers -/

/-- A fresh session. -/
def api0 : API := (NewAPI "http://zabbix.example/api_jsonrpc.php" "admin" "zabbix").1

/-- A world in which nothing was posted yet and every exchange succeeds with the given
body. -/
def replyWith (body : Option JValue) : World := ⟨[], fun _ => .body body⟩

/-- A world in which nothing was posted yet and the exchanges end as listed, one after the
other. -/
def scripted (ends : List Exchange) : World :=
  ⟨[], fun log => ends.getD (log.length - 1) (.doFailed "no route to host")⟩

/-- The answer to a successful login. -/
def loginOk : JValue :=
  .obj [("jsonrpc", .str "2.0"), ("result", .str "abc123token"), ("id", .num (JNumber.ofInt 0))]

/-- The answer to a login with wrong credentials. -/
def loginDenied : JValue :=
  .obj [("jsonrpc", .str "2.0"),
    ("error", .obj [("code", .num (JNumber.ofInt (-32602))), ("message", .str "Invalid params"),
      ("data", .str "Login name or password is incorrect")]),
    ("id", .num (JNumber.ofInt 0))]

/-- The answer to a resource call that the server refuses. -/
def notAuthorised : JValue :=
  .obj [("jsonrpc", .str "2.0"),
    ("error", .obj [("code", .num (JNumber.ofInt (-32602))), ("message", .str "Invalid params."),
      ("data", .str "Not authorised.")]),
    ("id", .num (JNumber.ofInt 0))]

/-- A session that holds the token of an earlier successful login. -/
def apiLoggedIn : API := (Login api0 (replyWith (some loginOk))).api

/-- A run of four calls that end in four different ways: a refused login, params that cannot
be encoded, a transport failure, and a body that is not JSON. -/
def mixedRun : List Call :=
  [Call.login, Call.host "get" (.unsupported "json: unsupported type: chan int"),
   Call.version, Call.history "get" emptyParams]

/-- The world of `mixedRun`: the three exchanges it comes to. -/
def mixedWorld : World :=
  scripted [.body (some loginDenied), .doFailed "dial tcp: connection refused", .body none]

/-- The answer to history.get with two records; the second also has a Clock member. -/
def historyAnswer : JValue :=
  .obj [("jsonrpc", .str "2.0"),
    ("result", .arr [
      .obj [("itemid", .str "23296"), ("clock", .str "1700000000"),
        ("value", .str "3.14159265358979"), ("ns", .str "0")],
      .obj [("itemid", .str "23296"), ("clock", .str "1700000060"), ("Clock", .str "0"),
        ("value", .str "2.5"), ("ns", .num (JNumber.ofInt 7))]]),
    ("id", .num (JNumber.ofInt 1))]

/-- An answer to history.get whose record has, next to clock, a member spelt with the Kelvin
sign (U+212A) in place of the letter k. -/
def kelvinAnswer : JValue :=
  .obj [("jsonrpc", .str "2.0"),
    ("result", .arr [
      .obj [("itemid", .str "23296"), ("clock", .str "1700000000"),
        ("value", .str "3.14159265358979"), ("cloc\u212A", .str "0")]]),
    ("id", .num (JNumber.ofInt 1))]

/-- The record of `kelvinAnswer` as the map the decoder builds for it. -/
def kelvinRecord : List (String × JValue) :=
  [("clock", .str "1700000000"), ("cloc\u212A", .str "0"), ("itemid", .str "23296"),
    ("value", .str "3.14159265358979")]

/-- The number literal 1e400, which is out of the range of a float64. -/
def hugeNumber : JNumber := ⟨none, false⟩

/-- An answer to history.get whose record has, next to the three strings, a member ns with
the number 1e400. -/
def hugeAnswer : JValue :=
  .obj [("jsonrpc", .str "2.0"),
    ("result", .arr [
      .obj [("itemid", .str "23296"), ("clock", .str "1700000000"),
        ("value", .str "3.14159265358979"), ("ns", .num hugeNumber)]]),
    ("id", .num (JNumber.ofInt 1))]

/-- The record of `hugeAnswer` as the map the decoder builds for it. -/
def hugeRecord : List (String × JValue) :=
  [("clock", .str "1700000000"), ("itemid", .str "23296"), ("ns", .num hugeNumber),
    ("value", .str "3.14159265358979")]

/-- An answer whose result is a string. -/
def stringAnswer : JValue :=
  .obj [("jsonrpc", .str "2.0"), ("result", .str "oops"), ("id", .num (JNumber.ofInt 0))]

/-- An answer whose result is the number 5. -/
def numberAnswer : JValue :=
  .obj [("jsonrpc", .str "2.0"), ("result", .num (JNumber.ofInt 5)),
    ("id", .num (JNumber.ofInt 0))]

/-- An answer to history.get whose record has a number as clock. -/
def numericClockAnswer : JValue :=
  .obj [("jsonrpc", .str "2.0"),
    ("result", .arr [.obj [("itemid", .str "23296"), ("clock", .num (JNumber.ofInt 1700000000)),
      ("value", .str "2.5")]]),
    ("id", .num (JNumber.ofInt 0))]


/-! ## Lemmas: the request choke-point -/

theorem wrapInt_of_range (i : Int) (h1 : -2 ^ 63 ≤ i) (h2 : i < 2 ^ 63) : wrapInt i = i := by
  unfold wrapInt
  omega

theorem wrapInt_step (a : Int) (n : Int) : wrapInt (wrapInt (a + 1) + n) = wrapInt (a + (n + 1)) := by
  unfold wrapInt
  omega

theorem ZabbixRequest_api (api : API) (m : String) (d : Params) (w : World) :
    (ZabbixRequest api m d w).api = { api with id := wrapInt (api.id + 1) } := by
  unfold ZabbixRequest
  simp only
  split
  · rfl
  · split <;> rfl

theorem ZabbixRequest_world (api : API) (m : String) (d : Params) (w : World) :
    (ZabbixRequest api m d w).world =
      match marshalRequest ⟨"2.0", m, d, api.auth, api.id⟩ with
      | .error _ => w
      | .ok encoded => (w.post api.url encoded).2 := by
  unfold ZabbixRequest
  simp only
  split
  · rfl
  · split <;> rfl

theorem marshalRequest_members {q : JsonRPCRequest} {doc : JValue}
    (h : marshalRequest q = .ok doc) :
    doc.member "method" = some (.str q.Method) ∧ doc.member "auth" = authMember q.Auth ∧
      doc.member "id" = some (.num (JNumber.ofInt q.Id)) := by
  unfold marshalRequest at h
  split at h
  · cases h
  · cases h
    by_cases ha : q.Auth = "" <;> simp [JValue.member, authMember, ha]

/-- What one `ZabbixRequest` hands over for posting: nothing when the params cannot be
marshalled, and otherwise one document, for the url of the session, whose method, auth and id
members are the method name, the token of the session and the counter of the session. -/
theorem ZabbixRequest_posted (api : API) (m : String) (d : Params) (w : World) :
    (ZabbixRequest api m d w).world.server = w.server ∧
    ((∃ reason, d = .unsupported reason) ∧ (ZabbixRequest api m d w).world.posted = w.posted ∨
     (∃ pdoc, d = .value pdoc) ∧ ∃ doc,
        (ZabbixRequest api m d w).world.posted = w.posted ++ [(api.url, doc)] ∧
        doc.member "method" = some (.str m) ∧ doc.member "auth" = authMember api.auth ∧
        doc.member "id" = some (.num (JNumber.ofInt api.id))) := by
  rw [ZabbixRequest_world]
  cases d with
  | unsupported reason => exact ⟨rfl, Or.inl ⟨⟨reason, rfl⟩, rfl⟩⟩
  | value pdoc =>
    have hm : ∃ doc, marshalRequest ⟨"2.0", m, .value pdoc, api.auth, api.id⟩ = .ok doc :=
      ⟨_, rfl⟩
    obtain ⟨doc, hdoc⟩ := hm
    rw [hdoc]
    exact ⟨rfl, Or.inr ⟨⟨pdoc, rfl⟩, doc, rfl, marshalRequest_members hdoc⟩⟩

theorem Login_world (api : API) (w : World) :
    (Login api w).world = (ZabbixRequest api "user.login" (loginParams api) w).world := by
  unfold Login
  simp only
  split <;> (try split) <;> (try split) <;> rfl

theorem Login_api_id (api : API) (w : World) :
    (Login api w).api.id = wrapInt (api.id + 1) := by
  unfold Login
  simp only
  split <;> (try split) <;> (try split) <;> simp [ZabbixRequest_api]

theorem Logout_world (api : API) (w : World) :
    (Logout api w).world = (ZabbixRequest api "user.logout" emptyParams w).world := by
  unfold Logout
  simp only
  split <;> (try split) <;> rfl

theorem Logout_api (api : API) (w : World) :
    (Logout api w).api = { api with id := wrapInt (api.id + 1) } := by
  unfold Logout
  simp only
  split <;> (try split) <;> simp [ZabbixRequest_api]

theorem Version_world (api : API) (w : World) :
    (Version api w).world = (ZabbixRequest api "APIInfo.version" emptyParams w).world := by
  unfold Version
  simp only
  split <;> (try split) <;> (try split) <;> rfl

theorem Version_api (api : API) (w : World) :
    (Version api w).api = { api with id := wrapInt (api.id + 1) } := by
  unfold Version
  simp only
  split <;> (try split) <;> (try split) <;> simp [ZabbixRequest_api]

theorem User_world (api : API) (m : String) (d : Params) (w : World) :
    (User api m d w).world = (ZabbixRequest api ("user." ++ m) d w).world := by
  unfold User
  simp only
  split <;> (try split) <;> (try split) <;> rfl

theorem User_api (api : API) (m : String) (d : Params) (w : World) :
    (User api m d w).api = { api with id := wrapInt (api.id + 1) } := by
  unfold User
  simp only
  split <;> (try split) <;> (try split) <;> simp [ZabbixRequest_api]

theorem Host_world (api : API) (m : String) (d : Params) (w : World) :
    (Host api m d w).world = (ZabbixRequest api ("host." ++ m) d w).world := by
  unfold Host
  simp only
  split <;> (try split) <;> rfl

theorem Host_api (api : API) (m : String) (d : Params) (w : World) :
    (Host api m d w).api = { api with id := wrapInt (api.id + 1) } := by
  unfold Host
  simp only
  split <;> (try split) <;> simp [ZabbixRequest_api]

theorem Graph_world (api : API) (m : String) (d : Params) (w : World) :
    (Graph api m d w).world = (ZabbixRequest api ("graph." ++ m) d w).world := by
  unfold Graph
  simp only
  split <;> (try split) <;> rfl

theorem Graph_api (api : API) (m : String) (d : Params) (w : World) :
    (Graph api m d w).api = { api with id := wrapInt (api.id + 1) } := by
  unfold Graph
  simp only
  split <;> (try split) <;> simp [ZabbixRequest_api]

theorem History_world (api : API) (m : String) (d : Params) (w : World) :
    (History api m d w).world = (ZabbixRequest api ("history." ++ m) d w).world := by
  unfold History
  simp only
  split <;> (try split) <;> rfl

theorem History_api (api : API) (m : String) (d : Params) (w : World) :
    (History api m d w).api = { api with id := wrapInt (api.id + 1) } := by
  unfold History
  simp only
  split <;> (try split) <;> simp [ZabbixRequest_api]

/-- Every call goes through `ZabbixRequest` once, with its method name and params. -/
theorem exec_world (c : Call) (api : API) (w : World) :
    (c.exec api w).world = (ZabbixRequest api c.method (c.params api) w).world := by
  cases c <;>
    simp [Call.exec, Call.method, Call.params, Login_world, Logout_world, Version_world,
      User_world, Host_world, Graph_world, History_world]

/-- Every call steps the counter and leaves the url as it is, and every call but Login leaves
the token as it is. -/
theorem exec_api (c : Call) (api : API) (w : World) :
    (c.exec api w).api.id = wrapInt (api.id + 1) ∧
      (c ≠ Call.login → (c.exec api w).api.auth = api.auth) := by
  cases c <;>
    simp [Call.exec, ZabbixRequest_api, Login_api_id, Logout_api, Version_api, User_api,
      Host_api, Graph_api, History_api]

theorem encodes_params (c : Call) (api : API) :
    (c.encodes = false ∧ ∃ reason, c.params api = .unsupported reason) ∨
    (c.encodes = true ∧ ∃ pdoc, c.params api = .value pdoc) := by
  cases c with
  | login => exact Or.inr ⟨rfl, _, rfl⟩
  | logout => exact Or.inr ⟨rfl, _, rfl⟩
  | version => exact Or.inr ⟨rfl, _, rfl⟩
  | request m d => cases d <;> simp [Call.encodes, Call.params]
  | user m d => cases d <;> simp [Call.encodes, Call.params]
  | host m d => cases d <;> simp [Call.encodes, Call.params]
  | graph m d => cases d <;> simp [Call.encodes, Call.params]
  | history m d => cases d <;> simp [Call.encodes, Call.params]

/-- The documents one call hands over for posting, by their id and auth members. -/
theorem exec_posted (c : Call) (api : API) (w : World) :
    ((c.exec api w).world.posted.drop w.posted.length).map (fun p => p.2.member "id") =
      (if c.encodes then [some (.num (JNumber.ofInt api.id))] else []) ∧
    ((c.exec api w).world.posted.drop w.posted.length).map (fun p => p.2.member "auth") =
      (if c.encodes then [authMember api.auth] else []) := by
  rw [exec_world]
  obtain ⟨_, hp⟩ := ZabbixRequest_posted api c.method (c.params api) w
  rcases encodes_params c api with ⟨he, reason, hr⟩ | ⟨he, pdoc, hv⟩
  · rcases hp with ⟨_, hp⟩ | ⟨⟨pdoc, hv⟩, _⟩
    · simp [hp, he]
    · rw [hr] at hv; cases hv
  · rcases hp with ⟨⟨reason, hr⟩, _⟩ | ⟨_, doc, hp, _, ha, hi⟩
    · rw [hv] at hr; cases hr
    · simp [hp, he, ha, hi]

theorem runTrace_ids (steps : List Call) :
    ∀ (api : API) (w : World), 0 ≤ api.id → api.id + steps.length < 2 ^ 63 →
      (runTrace api w steps).map (fun t => (t.1.map (fun p => p.2.member "id"), t.2.id)) =
        expectedIds api.id steps := by
  induction steps with
  | nil => intro api w _ _; rfl
  | cons c rest ih =>
    intro api w h0 h
    simp only [List.length_cons, Nat.cast_add, Nat.cast_one] at h
    have hid := (exec_api c api w).1
    rw [wrapInt_of_range _ (by omega) (by omega)] at hid
    have ih1 := ih (c.exec api w).api (c.exec api w).world (by rw [hid]; omega)
      (by rw [hid]; omega)
    simp only [runTrace, List.map_cons, expectedIds, ih1, hid, (exec_posted c api w).1]

theorem runTrace_auth (steps : List Call) :
    ∀ (api : API) (w : World), (∀ c ∈ steps, c ≠ Call.login) →
      (runTrace api w steps).map
          (fun t => (t.1.map (fun p => p.2.member "auth"), GetAuth t.2)) =
        steps.map (fun c => ((if c.encodes then [authMember api.auth] else []), api.auth)) := by
  induction steps with
  | nil => intro api w _; rfl
  | cons c rest ih =>
    intro api w hno
    have ha := (exec_api c api w).2 (hno c (List.mem_cons_self _ _))
    have ih1 := ih (c.exec api w).api (c.exec api w).world
      (fun c1 h1 => hno c1 (List.mem_cons_of_mem _ h1))
    rw [ha] at ih1
    simp only [runTrace, List.map_cons, ih1, (exec_posted c api w).2]
    simp only [GetAuth, ha]

theorem runCalls_counter (steps : List Call) :
    ∀ (api : API) (w : World), -2 ^ 63 ≤ api.id → api.id < 2 ^ 63 →
      (runCalls api w steps).api.id = wrapInt (api.id + steps.length) := by
  induction steps with
  | nil =>
    intro api w h1 h2
    simp only [runCalls, List.length_nil, Nat.cast_zero, add_zero]
    exact (wrapInt_of_range _ h1 h2).symm
  | cons c rest ih =>
    intro api w h1 h2
    have hid := (exec_api c api w).1
    have hr : -2 ^ 63 ≤ wrapInt (api.id + 1) ∧ wrapInt (api.id + 1) < 2 ^ 63 := by
      unfold wrapInt
      omega
    rw [runCalls, ih _ _ (by rw [hid]; exact hr.1) (by rw [hid]; exact hr.2), hid,
      wrapInt_step]
    simp only [List.length_cons, Nat.cast_add, Nat.cast_one]


/-! ## Lemmas: key order, field matching and decoding -/

theorem codesLess_irrefl (a : List Nat) : codesLess a a = false := by
  induction a with
  | nil => rfl
  | cons x xs ih => simp [codesLess, ih]

theorem codesLess_trans : ∀ (a b c : List Nat),
    codesLess a b = true → codesLess b c = true → codesLess a c = true
  | _, [], _, h, _ => by simp [codesLess] at h
  | _, _ :: _, [], _, h => by simp [codesLess] at h
  | [], _ :: _, _ :: _, _, _ => by simp [codesLess]
  | x :: xs, y :: ys, z :: zs, h1, h2 => by
    simp only [codesLess, Bool.or_eq_true, Bool.and_eq_true, decide_eq_true_eq] at h1 h2 ⊢
    rcases h1 with h1 | ⟨h1, h1r⟩
    · rcases h2 with h2 | ⟨h2, _⟩
      · left; omega
      · left; omega
    · rcases h2 with h2 | ⟨h2, h2r⟩
      · left; omega
      · right; exact ⟨by omega, codesLess_trans xs ys zs h1r h2r⟩

theorem codesLess_total : ∀ (a b : List Nat),
    codesLess a b = false → codesLess b a = false → a = b
  | [], [], _, _ => rfl
  | [], _ :: _, h, _ => by simp [codesLess] at h
  | _ :: _, [], _, h => by simp [codesLess] at h
  | x :: xs, y :: ys, h1, h2 => by
    simp only [codesLess, Bool.or_eq_false_iff, Bool.and_eq_false_imp, decide_eq_false_iff_not,
      decide_eq_true_eq] at h1 h2
    have hxy : x = y := by omega
    subst hxy
    rw [codesLess_total xs ys (h1.2 rfl) (h2.2 rfl)]

theorem keyLess_trans {a b c : String} (h1 : keyLess a b = true) (h2 : keyLess b c = true) :
    keyLess a c = true :=
  codesLess_trans _ _ _ h1 h2

theorem keyLess_irrefl (a : String) : keyLess a a = false :=
  codesLess_irrefl _

theorem keyLess_of_incomparable {a b c : String} (h1 : keyLess a b = false)
    (h2 : keyLess b a = false) : keyLess a c = keyLess b c := by
  unfold keyLess at *
  rw [codesLess_total _ _ h1 h2]

theorem mem_mapSet {m : List (String × JValue)} {k : String} {v : JValue}
    {e : String × JValue} (h : e ∈ mapSet m k v) : e = (k, v) ∨ e ∈ m := by
  induction m with
  | nil => simpa [mapSet] using h
  | cons hd rest ih =>
    obtain ⟨k1, v1⟩ := hd
    unfold mapSet at h
    split at h
    · simpa using h
    · split at h
      · simp only [List.mem_cons] at h ⊢
        rcases h with h | h
        · exact Or.inr (Or.inl h)
        · rcases ih h with h | h
          · exact Or.inl h
          · exact Or.inr (Or.inr h)
      · simp only [List.mem_cons] at h ⊢
        rcases h with h | h
        · exact Or.inl h
        · exact Or.inr (Or.inr h)

theorem mapSet_sorted {m : List (String × JValue)} (k : String) (v : JValue)
    (h : SortedKeys m) : SortedKeys (mapSet m k v) := by
  induction m with
  | nil => simp [mapSet, SortedKeys]
  | cons hd rest ih =>
    obtain ⟨k1, v1⟩ := hd
    unfold SortedKeys at h ih ⊢
    rw [List.pairwise_cons] at h
    unfold mapSet
    split
    · rename_i hlt
      rw [List.pairwise_cons, List.pairwise_cons]
      refine ⟨?_, h.1, h.2⟩
      intro e he
      rcases List.mem_cons.1 he with rfl | he
      · exact hlt
      · exact keyLess_trans hlt (h.1 e he)
    · split
      · rename_i hgt
        rw [List.pairwise_cons]
        refine ⟨?_, ih h.2⟩
        intro e he
        rcases mem_mapSet he with rfl | he
        · exact hgt
        · exact h.1 e he
      · rename_i h1 h2
        rw [List.pairwise_cons]
        refine ⟨?_, h.2⟩
        intro e he
        rw [keyLess_of_incomparable (Bool.eq_false_iff.2 h1) (Bool.eq_false_iff.2 h2)]
        exact h.1 e he

theorem objectInterface_sorted (kvs : List (String × JValue)) :
    ∀ m, SortedKeys m → SortedKeys (objectInterface kvs m) := by
  induction kvs with
  | nil => intro m h; simpa [objectInterface] using h
  | cons hd rest ih =>
    intro m h
    obtain ⟨k, v⟩ := hd
    rw [objectInterface]
    exact ih _ (mapSet_sorted k _ h)

theorem mem_arrayInterface {o : JValue} (js : List JValue) (h : o ∈ arrayInterface js) :
    ∃ j, o = valueInterface j := by
  induction js with
  | nil => simp [arrayInterface] at h
  | cons x xs ih =>
    rw [arrayInterface, List.mem_cons] at h
    rcases h with h | h
    · exact ⟨x, h⟩
    · exact ih h

/-- Every map met as an element of a decoded array has its keys ascending. -/
theorem valueInterface_elements_sorted {j : JValue} {objs : List JValue}
    (h : valueInterface j = .arr objs) {m : List (String × JValue)} (hm : JValue.obj m ∈ objs) :
    SortedKeys m := by
  cases j with
  | arr js =>
    rw [valueInterface] at h
    injection h with h
    subst h
    obtain ⟨j1, hj1⟩ := mem_arrayInterface js hm
    cases j1 with
    | obj kvs =>
      rw [valueInterface] at hj1
      injection hj1 with hj1
      subst hj1
      exact objectInterface_sorted kvs [] (by simp [SortedKeys])
    | num n => rw [valueInterface] at hj1; cases hj1
    | null => rw [valueInterface] at hj1; cases hj1
    | bool b => rw [valueInterface] at hj1; cases hj1
    | str s => rw [valueInterface] at hj1; cases hj1
    | arr xs => rw [valueInterface] at hj1; cases hj1
  | num n => rw [valueInterface] at h; cases h
  | null => rw [valueInterface] at h; cases h
  | bool b => rw [valueInterface] at h; cases h
  | str s => rw [valueInterface] at h; cases h
  | obj kvs => rw [valueInterface] at h; cases h

theorem findField_mem {fields : List String} {k f : String}
    (h : findField fields k = some f) : f ∈ fields := by
  unfold findField at h
  split at h
  · rename_i hk
    injection h with h
    exact h ▸ hk
  · exact List.mem_of_find?_eq_some h

theorem findField_fold {fields : List String} {k f : String}
    (h : findField fields k = some f) : k = f ∨ foldName f = foldName k := by
  unfold findField at h
  split at h
  · injection h with h
    exact Or.inl h
  · have := List.find?_some h
    exact Or.inr (by simpa using this)

theorem char_of_code {c : Char} {n : Nat} (h : c.toNat = n) : c = Char.ofNat n := by
  rw [← h, Char.ofNat_toNat]

/-- The only key that is decoded into the clock field and sorts after "clock" is the spelling
with the Kelvin sign. -/
theorem clock_key_after {k : String} (h : findField historyFields k = some "clock")
    (hlt : keyLess "clock" k = true) : k = "cloc\u212A" := by
  rcases findField_fold h with rfl | hf
  · exact absurd hlt (by decide)
  · obtain ⟨data⟩ := k
    have h0 : foldName "clock" = [67, 76, 79, 67, 75] := by decide
    rw [h0] at hf
    unfold foldName at hf
    have hf := hf.symm
    simp only [List.map_eq_cons_iff, List.map_eq_nil_iff] at hf
    obtain ⟨a, l1, rfl, ha, b, l2, rfl, hb, c, l3, rfl, hc, d, l4, rfl, hd, e, l5, rfl, he, rfl⟩ := hf
    have hlt2 : codesLess [99, 108, 111, 99, 107]
        [a.toNat, b.toNat, c.toNat, d.toNat, e.toNat] = true := hlt
    simp only [codesLess, Bool.or_eq_true, Bool.and_eq_true, decide_eq_true_eq, Bool.or_false,
      Bool.and_true, Bool.and_false] at hlt2
    unfold foldCode at ha hb hc hd he
    have ha2 : a.toNat = 99 := by split_ifs at ha <;> omega
    have hb2 : b.toNat = 108 := by split_ifs at hb <;> omega
    have hc2 : c.toNat = 111 := by split_ifs at hc <;> omega
    have hd2 : d.toNat = 99 := by split_ifs at hd <;> omega
    have he2 : e.toNat = 0x212A := by split_ifs at he <;> omega
    rw [char_of_code ha2, char_of_code hb2, char_of_code hc2, char_of_code hd2, char_of_code he2]

/-- A name of lower-case ASCII letters other than k and s sorts after every other spelling
with the same folded form. -/
theorem codesLess_of_fold : ∀ (fs ks : List Nat),
    (∀ x ∈ fs, 97 ≤ x ∧ x ≤ 122 ∧ x ≠ 107 ∧ x ≠ 115) →
    fs.map foldCode = ks.map foldCode → codesLess fs ks = false
  | _, [], _, _ => by simp [codesLess]
  | [], _ :: _, _, h => by simp at h
  | x :: fs, y :: ks, hx, h => by
    simp only [List.map_cons, List.cons.injEq] at h
    have hx1 := hx x (List.mem_cons_self _ _)
    have ih := codesLess_of_fold fs ks (fun z hz => hx z (List.mem_cons_of_mem _ hz)) h.2
    have hy : y ≤ x := by
      have h1 := h.1
      unfold foldCode at h1
      split_ifs at h1 <;> omega
    simp only [codesLess, ih, Bool.and_false, Bool.or_false, decide_eq_false_iff_not]
    omega

/-- No key that is decoded into the value field sorts after "value". -/
theorem value_key_after {k : String} (h : findField historyFields k = some "value") :
    keyLess "value" k = false := by
  rcases findField_fold h with rfl | hf
  · decide
  · unfold foldName at hf
    refine codesLess_of_fold _ _ (by decide) ?_
    rw [List.map_map, List.map_map]
    exact hf

/-- No key that is decoded into the itemid field sorts after "itemid". -/
theorem itemid_key_after {k : String} (h : findField historyFields k = some "itemid") :
    keyLess "itemid" k = false := by
  rcases findField_fold h with rfl | hf
  · decide
  · unfold foldName at hf
    refine codesLess_of_fold _ _ (by decide) ?_
    rw [List.map_map, List.map_map]
    exact hf

theorem decodeFields_keep {σ : Type} (set : σ → String → JValue → σ × Bool) (P : σ → Prop)
    (hset : ∀ s k v, P s → P (set s k v).1) :
    ∀ (kvs : List (String × JValue)) (s : σ), P s → P (decodeFields set kvs s).1 := by
  intro kvs
  induction kvs with
  | nil => intro s hs; exact hs
  | cons hd rest ih =>
    intro s hs
    obtain ⟨k, v⟩ := hd
    exact ih _ (hset s k v hs)

/-- The result of a response that ZabbixRequest returns is a value as the decoder builds it. -/
theorem ZabbixRequest_result_decoded (api : API) (m : String) (d : Params) (w : World) :
    ∃ j, (ZabbixRequest api m d w).response.Result = valueInterface j := by
  have hzero : ∃ j, JsonRPCResponse.zero.Result = valueInterface j := ⟨.null, rfl⟩
  have hset : ∀ (r : JsonRPCResponse) (k : String) (v : JValue),
      (∃ j, r.Result = valueInterface j) →
      ∃ j, (JsonRPCResponse.setField r k v).1.Result = valueInterface j := by
    intro r k v hr
    unfold JsonRPCResponse.setField
    split
    · exact hr
    · split_ifs
      · exact hr
      · exact hr
      · exact ⟨v, rfl⟩
      · exact hr
  unfold ZabbixRequest
  simp only
  split
  · exact hzero
  · split
    · exact hzero
    · exact hzero
    · exact hzero
    · rename_i doc _
      unfold unmarshalResponse
      split
      · exact hzero
      · exact decodeFields_keep _ (fun r : JsonRPCResponse => ∃ j, r.Result = valueInterface j)
          hset _ _ hzero
      · exact hzero
      · exact hzero

theorem storeString_of_not_str (old : String) (v : JValue) (hv : ∀ s, v ≠ .str s) :
    (storeString old v).1 = old := by
  cases v <;> simp [storeString]
  exact absurd rfl (hv _)

theorem history_field_skipped (f : String) (proj : ZabbixHistoryItem → String)
    (hkeep : ∀ h k v, (findField historyFields k = some f → ∀ s, v ≠ JValue.str s) →
      proj (ZabbixHistoryItem.setField h k v).1 = proj h) :
    ∀ (m : List (String × JValue)),
      (∀ e ∈ m, findField historyFields e.1 = some f → ∀ s, e.2 ≠ JValue.str s) →
      ∀ h, proj (decodeFields ZabbixHistoryItem.setField m h).1 = proj h := by
  intro m
  induction m with
  | nil => intro _ h; rfl
  | cons hd rest ih =>
    intro hm h
    obtain ⟨k, v⟩ := hd
    show proj (decodeFields ZabbixHistoryItem.setField rest
      (ZabbixHistoryItem.setField h k v).1).1 = proj h
    rw [ih (fun e he => hm e (List.mem_cons_of_mem _ he)), hkeep h k v (hm (k, v) (List.mem_cons_self _ _))]

/-- In a map with ascending keys the field `f` ends up holding the string stored under the
key `f`, when no later key is decoded into the same field with a string. -/
theorem history_field_decoded (f : String) (proj : ZabbixHistoryItem → String)
    (hkeep : ∀ h k v, (findField historyFields k = some f → ∀ s, v ≠ JValue.str s) →
      proj (ZabbixHistoryItem.setField h k v).1 = proj h)
    (hstore : ∀ h s, proj (ZabbixHistoryItem.setField h f (.str s)).1 = s) :
    ∀ (m : List (String × JValue)) (c : String), SortedKeys m → (f, JValue.str c) ∈ m →
      (∀ e ∈ m, keyLess f e.1 = true → findField historyFields e.1 = some f →
        ∀ s, e.2 ≠ JValue.str s) →
      ∀ h, proj (decodeFields ZabbixHistoryItem.setField m h).1 = c := by
  intro m
  induction m with
  | nil => intro c _ hmem; simp at hmem
  | cons hd rest ih =>
    intro c hs hmem hgood h
    obtain ⟨k, v⟩ := hd
    unfold SortedKeys at hs
    rw [List.pairwise_cons] at hs
    show proj (decodeFields ZabbixHistoryItem.setField rest
      (ZabbixHistoryItem.setField h k v).1).1 = c
    rcases List.mem_cons.1 hmem with heq | hin
    · injection heq with h1 h2
      subst h1 h2
      rw [history_field_skipped f proj hkeep rest, hstore]
      intro e he hfe
      exact hgood e (List.mem_cons_of_mem _ he) (hs.1 e he) hfe
    · exact ih c hs.2 hin (fun e he => hgood e (List.mem_cons_of_mem _ he)) _

theorem historyFields_cases {f : String} (h : f ∈ historyFields) :
    f = "clock" ∨ f = "value" ∨ f = "itemid" := by
  simpa [historyFields] using h

theorem Clock_keep (h : ZabbixHistoryItem) (k : String) (v : JValue)
    (hv : findField historyFields k = some "clock" → ∀ s, v ≠ JValue.str s) :
    (ZabbixHistoryItem.setField h k v).1.Clock = h.Clock := by
  unfold ZabbixHistoryItem.setField
  split
  · rfl
  · rename_i f hf
    rcases historyFields_cases (findField_mem hf) with rfl | rfl | rfl
    · simp [storeString_of_not_str _ v (hv hf)]
    · simp
    · simp

theorem Value_keep (h : ZabbixHistoryItem) (k : String) (v : JValue)
    (hv : findField historyFields k = some "value" → ∀ s, v ≠ JValue.str s) :
    (ZabbixHistoryItem.setField h k v).1.Value = h.Value := by
  unfold ZabbixHistoryItem.setField
  split
  · rfl
  · rename_i f hf
    rcases historyFields_cases (findField_mem hf) with rfl | rfl | rfl
    · simp
    · simp [storeString_of_not_str _ v (hv hf)]
    · simp

theorem Itemid_keep (h : ZabbixHistoryItem) (k : String) (v : JValue)
    (hv : findField historyFields k = some "itemid" → ∀ s, v ≠ JValue.str s) :
    (ZabbixHistoryItem.setField h k v).1.Itemid = h.Itemid := by
  unfold ZabbixHistoryItem.setField
  split
  · rfl
  · rename_i f hf
    rcases historyFields_cases (findField_mem hf) with rfl | rfl | rfl
    · simp
    · simp
    · simp [storeString_of_not_str _ v (hv hf)]

theorem keyLess_asymm {a b : String} (h : keyLess a b = true) : keyLess b a = false := by
  cases hba : keyLess b a
  · rfl
  · have := keyLess_trans h hba
    rw [keyLess_irrefl] at this
    cases this

theorem sortFields_of_sorted {m : List (String × JValue)} (h : SortedKeys m) :
    sortFields m = m := by
  induction m with
  | nil => rfl
  | cons e rest ih =>
    unfold SortedKeys at h ih
    rw [List.pairwise_cons] at h
    rw [sortFields, ih h.2]
    cases rest with
    | nil => rfl
    | cons e1 r =>
      rw [insertField, keyLess_asymm (h.1 e1 (List.mem_cons_self _ _))]
      simp

theorem mem_printFields {m : List (String × JValue)} {e : String × JValue}
    (h : e ∈ printFields m) : ∃ v, (e.1, v) ∈ m ∧ e.2 = printInterface v := by
  induction m with
  | nil => simp [printFields] at h
  | cons hd rest ih =>
    obtain ⟨k, v⟩ := hd
    rw [printFields, List.mem_cons] at h
    rcases h with rfl | h
    · exact ⟨v, List.mem_cons_self _ _, rfl⟩
    · obtain ⟨w, hw, hew⟩ := ih h
      exact ⟨w, List.mem_cons_of_mem _ hw, hew⟩

theorem printFields_mem {m : List (String × JValue)} {k : String} {v : JValue}
    (h : (k, v) ∈ m) : (k, printInterface v) ∈ printFields m := by
  induction m with
  | nil => simp at h
  | cons hd rest ih =>
    obtain ⟨k1, v1⟩ := hd
    rw [printFields]
    rcases List.mem_cons.1 h with heq | h
    · injection heq with h1 h2
      subst h1 h2
      exact List.mem_cons_self _ _
    · exact List.mem_cons_of_mem _ (ih h)

theorem printFields_sorted {m : List (String × JValue)} (h : SortedKeys m) :
    SortedKeys (printFields m) := by
  induction m with
  | nil => simp [printFields, SortedKeys]
  | cons hd rest ih =>
    obtain ⟨k, v⟩ := hd
    unfold SortedKeys at h ih ⊢
    rw [List.pairwise_cons] at h
    rw [printFields, List.pairwise_cons]
    refine ⟨?_, ih h.2⟩
    intro e he
    obtain ⟨w, hw, _⟩ := mem_printFields he
    exact h.1 (e.1, w) hw

theorem printInterface_eq_str {v : JValue} {s : String}
    (h : printInterface v = .str s) : v = .str s := by
  cases v <;> rw [printInterface] at h <;> first | exact h | cases h

/-- Decoding one element of the result. -/
theorem unmarshalHistoryItem_record {m : List (String × JValue)} {it : ZabbixHistoryItem}
    (hs : SortedKeys m) (hrec : HistoryRecord (.obj m) it) (hk : NoKelvinClock (.obj m)) :
    (unmarshalHistoryItem (.obj m)).1 = it := by
  obtain ⟨m1, hm1, hc, hv, hi⟩ := hrec
  injection hm1 with hm1
  subst hm1
  have h1 := history_field_decoded "clock" (fun h => h.Clock) Clock_keep
    (fun h s => by simp [ZabbixHistoryItem.setField, findField, historyFields, storeString])
    m it.Clock hs hc
    (fun e he hlt hf s hes => by
      have hkey := clock_key_after hf hlt
      apply hk m s rfl
      rw [← hkey, ← hes]
      exact he) ⟨"", "", ""⟩
  have h2 := history_field_decoded "value" (fun h => h.Value) Value_keep
    (fun h s => by simp [ZabbixHistoryItem.setField, findField, historyFields, storeString])
    m it.Value hs hv
    (fun e _ hlt hf => by rw [value_key_after hf] at hlt; cases hlt) ⟨"", "", ""⟩
  have h3 := history_field_decoded "itemid" (fun h => h.Itemid) Itemid_keep
    (fun h s => by simp [ZabbixHistoryItem.setField, findField, historyFields, storeString])
    m it.Itemid hs hi
    (fun e _ hlt hf => by rw [itemid_key_after hf] at hlt; cases hlt) ⟨"", "", ""⟩
  simp only at h1 h2 h3
  show (decodeFields ZabbixHistoryItem.setField m ⟨"", "", ""⟩).1 = it
  generalize (decodeFields ZabbixHistoryItem.setField m ⟨"", "", ""⟩).1 = x at h1 h2 h3
  cases x
  cases it
  simp_all

/-! ## The claims -/

/-- C1 as stated fails, in two ways. A call whose params cannot be marshalled uses up an id
and hands over no envelope: in a run of such a Host call and a Version call on a fresh
session, the only envelope handed over has id 1. And the counter is a Go int: after 2^63 - 1
calls on a fresh session it is 2^63 - 1, and after one more call it is -2^63. -/
theorem request_ids_gap_and_wrap :
    (runCalls api0 (replyWith none)
      [Call.host "get" (.unsupported "json: unsupported type: chan int"),
       Call.version]).world.posted.map (fun p => p.2.member "id") =
      [some (.num (JNumber.ofInt 1))] ∧
    (runCalls api0 (replyWith none) (List.replicate (2 ^ 63 - 1) Call.version)).api.id =
      2 ^ 63 - 1 ∧
    (runCalls api0 (replyWith none) (List.replicate (2 ^ 63) Call.version)).api.id =
      -2 ^ 63 := by
  refine ⟨rfl, ?_, ?_⟩
  · rw [runCalls_counter _ _ _ (by decide) (by decide), List.length_replicate]
    unfold wrapInt
    norm_num [api0, NewAPI]
  · rw [runCalls_counter _ _ _ (by decide) (by decide), List.length_replicate]
    unfold wrapInt
    norm_num [api0, NewAPI]

/-- C1, amended: on a session made by NewAPI, whatever was posted before and however the
exchanges end, in every run of N calls with N below 2^63, made directly through ZabbixRequest
or through Login, Logout, Version, User, Host, Graph or History, the k-th call hands over for
posting exactly one envelope, whose id member is k-1, or nothing when its params cannot be
marshalled, and the counter is k after the k-th call. -/
theorem request_ids_count_calls (server user passwd : String) (w : World)
    (steps : List Call) (h : steps.length < 2 ^ 63) :
    (runTrace (NewAPI server user passwd).1 w steps).map
        (fun t => (t.1.map (fun p => p.2.member "id"), t.2.id)) =
      expectedIds 0 steps := by
  have := runTrace_ids steps (NewAPI server user passwd).1 w (by simp [NewAPI])
    (by simp only [NewAPI, zero_add]; exact_mod_cast h)
  simpa [NewAPI] using this

theorem request_ids_count_calls_witness :
    (runTrace api0 mixedWorld mixedRun).map
        (fun t => (t.1.map (fun p => p.2.member "id"), t.2.id)) =
      [([some (.num (JNumber.ofInt 0))], 1), ([], 2), ([some (.num (JNumber.ofInt 2))], 3),
        ([some (.num (JNumber.ofInt 3))], 4)] :=
  request_ids_count_calls _ _ _ mixedWorld mixedRun (by decide)

/-- C2, what Login sends: on every session Login hands over for posting one user.login
envelope whose auth member is the token the session holds, left out only when that token is
empty; two Logins in a row on a fresh session, the first answered with a token, post a first
envelope without auth member and a second one with the auth member "abc123token". -/
theorem Login_sends_stored_token (api : API) (w : World) :
    (∃ doc, (Login api w).world.posted = w.posted ++ [(api.url, doc)] ∧
      doc.member "method" = some (.str "user.login") ∧
      doc.member "auth" = authMember (GetAuth api)) ∧
    GetAuth apiLoggedIn = "abc123token" ∧
    (Login apiLoggedIn (Login api0 (replyWith (some loginOk))).world).world.posted.map
        (fun p => (p.2.member "method", p.2.member "auth")) =
      [(some (.str "user.login"), none),
       (some (.str "user.login"), some (.str "abc123token"))] := by
  refine ⟨?_, by decide, rfl⟩
  rw [Login_world]
  obtain ⟨_, hp⟩ := ZabbixRequest_posted api "user.login" (loginParams api) w
  rcases hp with ⟨⟨reason, hr⟩, _⟩ | ⟨_, doc, hp, hm, ha, _⟩
  · cases hr
  · exact ⟨doc, hp, hm, ha⟩

/-- C3: when the answer to user.login has error code 0 and the string t as result, Login
returns true with a nil error, GetAuth then returns t, and in every run of calls other than
Login that follows, each call hands over for posting exactly one envelope, whose auth member
is the string t (left out by omitempty when t is empty), or nothing when its params cannot be
marshalled, and the session holds the token t after each call. -/
theorem Login_stores_token (api : API) (w : World) (t : String)
    (herr : (ZabbixRequest api "user.login" (loginParams api) w).err = none)
    (hcode : (ZabbixRequest api "user.login" (loginParams api) w).response.Error.Code = 0)
    (hres : (ZabbixRequest api "user.login" (loginParams api) w).response.Result = .str t) :
    (Login api w).out = .returned (true, none) ∧
    GetAuth (Login api w).api = t ∧
    ∀ steps : List Call, (∀ c ∈ steps, c ≠ Call.login) →
      (runTrace (Login api w).api (Login api w).world steps).map
          (fun r => (r.1.map (fun p => p.2.member "auth"), GetAuth r.2)) =
        steps.map (fun c => ((if c.encodes then [authMember t] else []), t)) := by
  have hout : (Login api w).out = .returned (true, none) ∧ GetAuth (Login api w).api = t := by
    unfold Login
    simp only [herr, hcode, hres, ne_eq, not_true_eq_false, if_false, GetAuth, and_self]
  refine ⟨hout.1, hout.2, ?_⟩
  intro steps hno
  have h := runTrace_auth steps (Login api w).api (Login api w).world hno
  have ht : (Login api w).api.auth = t := hout.2
  rw [ht] at h
  exact h

theorem Login_stores_token_witness :
    GetAuth (Login api0 (replyWith (some loginOk))).api = "abc123token" ∧
    (runTrace (Login api0 (replyWith (some loginOk))).api
        (Login api0 (replyWith (some loginOk))).world [Call.host "get" emptyParams]).map
        (fun r => (r.1.map (fun p => p.2.member "auth"), GetAuth r.2)) =
      [([some (.str "abc123token")], "abc123token")] :=
  ⟨(Login_stores_token api0 (replyWith (some loginOk)) "abc123token" rfl rfl rfl).2.1,
   (Login_stores_token api0 (replyWith (some loginOk)) "abc123token" rfl rfl rfl).2.2
     [Call.host "get" emptyParams] (by simp)⟩

/-- C4: when the answer to user.login has a non-zero error code, Login returns false with the
error object of the response as error, whose Error() text is the data string of the response,
and the token of the session is what it was before the call. -/
theorem Login_refused_keeps_token (api : API) (w : World)
    (herr : (ZabbixRequest api "user.login" (loginParams api) w).err = none)
    (hcode : (ZabbixRequest api "user.login" (loginParams api) w).response.Error.Code ≠ 0) :
    (Login api w).out = .returned (false, some (.zabbix
      (ZabbixRequest api "user.login" (loginParams api) w).response.Error)) ∧
    (GoError.zabbix (ZabbixRequest api "user.login" (loginParams api) w).response.Error).Error =
      (ZabbixRequest api "user.login" (loginParams api) w).response.Error.Data ∧
    GetAuth (Login api w).api = GetAuth api := by
  unfold Login
  simp only [herr, hcode, ne_eq, not_false_eq_true, if_true, GetAuth, ZabbixRequest_api,
    GoError.Error, ZabbixError.Error, and_self]

theorem Login_refused_keeps_token_witness :
    (Login api0 (replyWith (some loginDenied))).out = .returned (false, some (.zabbix
      ⟨-32602, "Invalid params", "Login name or password is incorrect"⟩)) ∧
    (GoError.zabbix ⟨-32602, "Invalid params", "Login name or password is incorrect"⟩).Error =
      "Login name or password is incorrect" ∧
    GetAuth (Login api0 (replyWith (some loginDenied))).api = "" :=
  Login_refused_keeps_token api0 (replyWith (some loginDenied)) rfl (by decide)

/-- C5: when the response has a non-zero error code, each of User, Host, Graph and History
returns (does not panic) a nil result together with the error object of the response, whatever
the result of the response is. -/
theorem accessors_return_error_object (api : API) (method : String) (data : Params)
    (w : World) :
    ((ZabbixRequest api ("user." ++ method) data w).err = none →
      (ZabbixRequest api ("user." ++ method) data w).response.Error.Code ≠ 0 →
      (User api method data w).out = .returned (none, some (.zabbix
        (ZabbixRequest api ("user." ++ method) data w).response.Error))) ∧
    ((ZabbixRequest api ("host." ++ method) data w).err = none →
      (ZabbixRequest api ("host." ++ method) data w).response.Error.Code ≠ 0 →
      (Host api method data w).out = .returned (none, some (.zabbix
        (ZabbixRequest api ("host." ++ method) data w).response.Error))) ∧
    ((ZabbixRequest api ("graph." ++ method) data w).err = none →
      (ZabbixRequest api ("graph." ++ method) data w).response.Error.Code ≠ 0 →
      (Graph api method data w).out = .returned (none, some (.zabbix
        (ZabbixRequest api ("graph." ++ method) data w).response.Error))) ∧
    ((ZabbixRequest api ("history." ++ method) data w).err = none →
      (ZabbixRequest api ("history." ++ method) data w).response.Error.Code ≠ 0 →
      (History api method data w).out = .returned (none, some (.zabbix
        (ZabbixRequest api ("history." ++ method) data w).response.Error))) := by
  refine ⟨?_, ?_, ?_, ?_⟩
  · intro herr hcode
    unfold User
    simp only [herr, hcode, ne_eq, not_false_eq_true, if_true]
  · intro herr hcode
    unfold Host
    simp only [herr, hcode, ne_eq, not_false_eq_true, if_true]
  · intro herr hcode
    unfold Graph
    simp only [herr, hcode, ne_eq, not_false_eq_true, if_true]
  · intro herr hcode
    unfold History
    simp only [herr, hcode, ne_eq, not_false_eq_true, if_true]

theorem accessors_return_error_object_witness :
    (User apiLoggedIn "get" emptyParams (replyWith (some notAuthorised))).out =
      .returned (none, some (.zabbix ⟨-32602, "Invalid params.", "Not authorised."⟩)) ∧
    (Host apiLoggedIn "get" emptyParams (replyWith (some notAuthorised))).out =
      .returned (none, some (.zabbix ⟨-32602, "Invalid params.", "Not authorised."⟩)) ∧
    (Graph apiLoggedIn "get" emptyParams (replyWith (some notAuthorised))).out =
      .returned (none, some (.zabbix ⟨-32602, "Invalid params.", "Not authorised."⟩)) ∧
    (History apiLoggedIn "get" emptyParams (replyWith (some notAuthorised))).out =
      .returned (none, some (.zabbix ⟨-32602, "Invalid params.", "Not authorised."⟩)) :=
  ⟨(accessors_return_error_object apiLoggedIn "get" emptyParams
      (replyWith (some notAuthorised))).1 rfl (by decide),
   (accessors_return_error_object apiLoggedIn "get" emptyParams
      (replyWith (some notAuthorised))).2.1 rfl (by decide),
   (accessors_return_error_object apiLoggedIn "get" emptyParams
      (replyWith (some notAuthorised))).2.2.1 rfl (by decide),
   (accessors_return_error_object apiLoggedIn "get" emptyParams
      (replyWith (some notAuthorised))).2.2.2 rfl (by decide)⟩

/-- C6, on a body that is not valid JSON: Unmarshal reports an error, and ZabbixRequest returns
the zero envelope with a nil error, on every session, for every method and params that can be
marshalled, and whatever was posted before. -/
theorem ZabbixRequest_invalid_body (api : API) (method : String) (doc : JValue)
    (posted : List (String × JValue)) :
    (unmarshalResponse JsonRPCResponse.zero none).2 = true ∧
    (ZabbixRequest api method (.value doc) ⟨posted, fun _ => .body none⟩).response =
      JsonRPCResponse.zero ∧
    (ZabbixRequest api method (.value doc) ⟨posted, fun _ => .body none⟩).err = none :=
  ⟨rfl, rfl, rfl⟩

/-- C7, on a body that is not valid JSON and on an answer whose result is a number: Login,
Version and User panic at the type assertion on the result. -/
theorem type_assertions_panic :
    (Login api0 (replyWith none)).out =
      .panicked "interface conversion: interface \x7b\x7d is nil, not string" ∧
    (Version api0 (replyWith none)).out =
      .panicked "interface conversion: interface \x7b\x7d is nil, not string" ∧
    (User api0 "get" emptyParams (replyWith none)).out =
      .panicked "interface conversion: interface \x7b\x7d is nil, not []interface \x7b\x7d" ∧
    (Login api0 (replyWith (some numberAnswer))).out =
      .panicked "interface conversion: interface \x7b\x7d is float64, not string" ∧
    (Version api0 (replyWith (some numberAnswer))).out =
      .panicked "interface conversion: interface \x7b\x7d is float64, not string" ∧
    (User api0 "get" emptyParams (replyWith (some stringAnswer))).out =
      .panicked "interface conversion: interface \x7b\x7d is string, not []interface \x7b\x7d" :=
  ⟨rfl, rfl, rfl, rfl, rfl, rfl⟩

/-- C8, on an answer with error code 0 whose result is a string, and on a history record whose
clock is a number: Unmarshal reports an error, and Host, Graph and History return a nil error,
with a nil list or a record whose Clock is empty. -/
theorem narrowing_error_dropped :
    (unmarshalHosts (marshalInterface (.str "oops"))).2 = true ∧
    (Host api0 "get" emptyParams (replyWith (some stringAnswer))).out = .returned (none, none) ∧
    (unmarshalGraphs (marshalInterface (.str "oops"))).2 = true ∧
    (Graph api0 "get" emptyParams (replyWith (some stringAnswer))).out = .returned (none, none) ∧
    (unmarshalHistory (marshalInterface (.str "oops"))).2 = true ∧
    (History api0 "get" emptyParams (replyWith (some stringAnswer))).out =
      .returned (none, none) ∧
    (unmarshalHistory (marshalInterface (ZabbixRequest api0 "history.get" emptyParams
      (replyWith (some numericClockAnswer))).response.Result)).2 = true ∧
    (History api0 "get" emptyParams (replyWith (some numericClockAnswer))).out =
      .returned (some [⟨"", "2.5", "23296"⟩], none) :=
  ⟨rfl, rfl, rfl, rfl, rfl, rfl, rfl, rfl⟩

/-- C9 as stated fails, in two ways. The result is a list of one object with the string-valued
members clock "1700000000", value "3.14159265358979" and itemid "23296". When the object also
has a member spelt with the Kelvin sign, History returns a record whose Clock is "0", the
string of that member. When the object also has a member ns with the number 1e400, Marshal
fails on the result and History returns a nil list with a nil error. -/
theorem History_loses_record_strings :
    (ZabbixRequest api0 "history.get" emptyParams (replyWith (some kelvinAnswer))).err = none ∧
    (ZabbixRequest api0 "history.get" emptyParams
      (replyWith (some kelvinAnswer))).response.Error.Code = 0 ∧
    (ZabbixRequest api0 "history.get" emptyParams
      (replyWith (some kelvinAnswer))).response.Result = .arr [.obj kelvinRecord] ∧
    HistoryRecord (.obj kelvinRecord) ⟨"1700000000", "3.14159265358979", "23296"⟩ ∧
    (History api0 "get" emptyParams (replyWith (some kelvinAnswer))).out =
      .returned (some [⟨"0", "3.14159265358979", "23296"⟩], none) ∧
    (ZabbixRequest api0 "history.get" emptyParams (replyWith (some hugeAnswer))).err = none ∧
    (ZabbixRequest api0 "history.get" emptyParams
      (replyWith (some hugeAnswer))).response.Error.Code = 0 ∧
    (ZabbixRequest api0 "history.get" emptyParams
      (replyWith (some hugeAnswer))).response.Result = .arr [.obj hugeRecord] ∧
    HistoryRecord (.obj hugeRecord) ⟨"1700000000", "3.14159265358979", "23296"⟩ ∧
    marshalInterface (.arr [.obj hugeRecord]) = none ∧
    (History api0 "get" emptyParams (replyWith (some hugeAnswer))).out =
      .returned (none, none) := by
  refine ⟨rfl, rfl, rfl, ⟨_, rfl, ?_, ?_, ?_⟩, rfl, rfl, rfl, rfl, ⟨_, rfl, ?_, ?_, ?_⟩,
    rfl, rfl⟩ <;> simp [kelvinRecord, hugeRecord]

/-- C9, amended: when the response has error code 0 and its result is a list of n objects,
each with string-valued clock, value and itemid members and none holding a string under the
key spelt c, l, o, c, Kelvin sign, and no number anywhere in the result is out of the range of
a float64, History returns a nil error and the list of the n records in the same order, each
with the three strings of its object. -/
theorem History_returns_records (api : API) (method : String) (data : Params) (w : World)
    (objs : List JValue) (items : List ZabbixHistoryItem)
    (herr : (ZabbixRequest api ("history." ++ method) data w).err = none)
    (hcode : (ZabbixRequest api ("history." ++ method) data w).response.Error.Code = 0)
    (hres : (ZabbixRequest api ("history." ++ method) data w).response.Result = .arr objs)
    (hrec : List.Forall₂ (fun o it => HistoryRecord o it ∧ NoKelvinClock o) objs items)
    (hrange : valueRangeError (.arr objs) = false) :
    (History api method data w).out = .returned (some items, none) := by
  obtain ⟨j, hj⟩ := ZabbixRequest_result_decoded api ("history." ++ method) data w
  rw [hres] at hj
  have hsorted : ∀ m, JValue.obj m ∈ objs → SortedKeys m :=
    fun m hm => valueInterface_elements_sorted hj.symm hm
  have hmap : (printArray objs).map (fun x => (unmarshalHistoryItem x).1) = items := by
    clear hres hj hrange
    induction hrec with
    | nil => rfl
    | cons hd _ ih =>
      rename_i o it os its
      obtain ⟨hr, hk⟩ := hd
      obtain ⟨m, rfl, hc, hv, hi⟩ := hr
      have hs := hsorted m (List.mem_cons_self _ _)
      rw [printArray, List.map_cons, ih (fun m1 h1 => hsorted m1 (List.mem_cons_of_mem _ h1)),
        printInterface, sortFields_of_sorted (printFields_sorted hs),
        unmarshalHistoryItem_record (printFields_sorted hs)
          ⟨_, rfl, printFields_mem hc, printFields_mem hv, printFields_mem hi⟩
          (fun m2 s h2 hmem => by
            injection h2 with h2
            subst h2
            obtain ⟨w1, hw, hws⟩ := mem_printFields hmem
            rw [printInterface_eq_str hws.symm] at hw
            exact hk m s rfl hw)]
  unfold History
  simp only [herr, hcode, hres, ne_eq, not_true_eq_false, if_false, marshalInterface, hrange,
    Bool.false_eq_true, printInterface, unmarshalHistory, unmarshalSlice, hmap]

theorem History_returns_records_witness :
    (History apiLoggedIn "get" emptyParams (replyWith (some historyAnswer))).out =
      .returned (some [⟨"1700000000", "3.14159265358979", "23296"⟩,
        ⟨"1700000060", "2.5", "23296"⟩], none) :=
  History_returns_records apiLoggedIn "get" emptyParams (replyWith (some historyAnswer))
    [.obj [("clock", .str "1700000000"), ("itemid", .str "23296"), ("ns", .str "0"),
        ("value", .str "3.14159265358979")],
     .obj [("Clock", .str "0"), ("clock", .str "1700000060"), ("itemid", .str "23296"),
        ("ns", .num (JNumber.ofInt 7)), ("value", .str "2.5")]]
    [⟨"1700000000", "3.14159265358979", "23296"⟩, ⟨"1700000060", "2.5", "23296"⟩]
    rfl rfl rfl
    (List.Forall₂.cons
      ⟨⟨_, rfl, by simp, by simp, by simp⟩, fun m s h => by cases h; simp⟩
      (List.Forall₂.cons
        ⟨⟨_, rfl, by simp, by simp, by simp⟩, fun m s h => by cases h; simp⟩
        List.Forall₂.nil))
    rfl

/-- C10: Logout hands over for posting one user.logout envelope whose auth member is the
current token of the session (left out by omitempty when the token is empty), and however the
exchange ends, the session after Logout differs from the session before only in the id
counter; GetAuth still returns the token held before. -/
theorem Logout_changes_only_counter (api : API) (w : World) :
    (∃ doc, (Logout api w).world.posted = w.posted ++ [(api.url, doc)] ∧
      doc.member "method" = some (.str "user.logout") ∧
      doc.member "auth" = authMember (GetAuth api)) ∧
    (Logout api w).api = { api with id := wrapInt (api.id + 1) } ∧
    GetAuth (Logout api w).api = GetAuth api := by
  refine ⟨?_, Logout_api api w, by simp [Logout_api, GetAuth]⟩
  rw [Logout_world]
  obtain ⟨_, hp⟩ := ZabbixRequest_posted api "user.logout" emptyParams w
  rcases hp with ⟨⟨reason, hr⟩, _⟩ | ⟨_, doc, hp, hm, ha, _⟩
  · cases hr
  · exact ⟨doc, hp, hm, ha⟩

end Zabbix
